import Mathlib

/-!
# Menu bar item: activation and visibility coordination

A shallow embedding of `internal/driver/glfw/menu_bar_item.go`: the event
callbacks of `MenuBarItem` (`MouseIn`, `MouseMoved`, `MouseOut`, `Tapped`), its
`Resize`, the switch-menu operation `activateChild`, `updateChildPosition`, and
the renderer's `BackgroundColor`.  The bar, the dropdown menu widget, the widget
base and the geometry types live in other files; they are modelled here as the
specification describes them, each such definition saying so.

Go pointers are modelled as references (natural numbers) into total heaps of
objects; a possibly-nil pointer is an `Option` of a reference.  A method with a
pointer receiver becomes a function taking the reference of the receiver and
the state of the whole bar.  A method whose body dereferences a pointer that
may be nil returns `Option State`, `none` standing for the run-time panic.

Every call the source file makes on a collaborator (a dropdown menu, the bar,
the widget helpers) is appended to `State.calls`, in program order, so that
statements about the order and the presence of calls can be made.
-/

namespace Fyne

/-! ## Geometry (`fyne.Size`, `fyne.Position`) -/

/-- Modelled from the spec: `fyne.Size` is not in the source file; it is the
framework's size type, of which the source reads the field `Height` (Go `int`). -/
structure Size where
  Width : Int
  Height : Int
deriving DecidableEq, Repr

/-- Modelled from the spec: `fyne.Position` is not in the source file; it is the
framework's position type, built by `fyne.NewPos(x, y)` (Go `int`). -/
structure Position where
  X : Int
  Y : Int
deriving DecidableEq, Repr

/-- Modelled from the spec: `fyne.NewSize` is not in the source file; it builds a
size from a width and a height. -/
def NewSize (w h : Int) : Size := ⟨w, h⟩

/-- Modelled from the spec: `fyne.NewPos` is not in the source file; it builds a
position from its two coordinates. -/
def NewPos (x y : Int) : Position := ⟨x, y⟩

/-- Modelled from the spec: `fyne.Size.IsZero` is not in the source file; the
spec reads it as "zero size", both dimensions being zero. -/
def Size.IsZero (s : Size) : Bool := s.Width == 0 && s.Height == 0

/-! ## Objects -/

/-- Reference to a `publicWidget.Menu` object (a non-nil `*publicWidget.Menu`). -/
abbrev MenuRef := Nat

/-- Reference to a `MenuBarItem` object (a non-nil `*MenuBarItem`). -/
abbrev ItemRef := Nat

/-- Modelled from the spec: `widget.Base` is not in the source file; the spec
describes it as the generic widget base with visibility, position and size
bookkeeping. -/
structure Base where
  hidden : Bool
  position : Position
  size : Size
deriving DecidableEq, Repr

/-- Modelled from the spec: `publicWidget.Menu` is not in the source file.  A
dropdown is visible or hidden, has a position and a size (its base), a natural
minimum size (what `MinSize()` returns), and possibly an open nested submenu. -/
structure Menu where
  base : Base
  minSize : Size
  activeChild : Option MenuRef
deriving DecidableEq, Repr

/-- Modelled from the spec: `MenuBar` is not in the source file; the source uses
its fields `active` and `activeChild`. -/
structure MenuBar where
  active : Bool
  activeChild : Option MenuRef
deriving DecidableEq, Repr

/-- The struct `MenuBarItem`.  The field `Menu` (the menu definition) is only read
by `CreateRenderer` and is left out; `Parent` is the one bar of the `State`. -/
structure MenuBarItem where
  base : Base
  Child : Option MenuRef
  hovered : Bool
deriving DecidableEq, Repr

/-- A call made by the source file on a collaborator. -/
inductive Call where
  | menuDeactivateChild (m : MenuRef)
  | menuHide (m : MenuRef)
  | menuShow (m : MenuRef)
  | menuResize (m : MenuRef) (size : Size)
  | menuMove (m : MenuRef) (pos : Position)
  | barActivate
  | barDeactivate
  | refreshWidget (i : ItemRef)
  | resizeWidget (i : ItemRef) (size : Size)
deriving DecidableEq, Repr

/-- The state of one menu bar: the bar, the heap of its items, the heap of menu
widgets, and the calls made so far (oldest first). -/
structure State where
  bar : MenuBar
  items : ItemRef → MenuBarItem
  menus : MenuRef → Menu
  calls : List Call

/-- Appends a call to the log. -/
def State.record (c : Call) (s : State) : State :=
  { s with calls := s.calls ++ [c] }

/-- Updates the menu object behind a reference. -/
def State.modifyMenu (m : MenuRef) (f : Menu → Menu) (s : State) : State :=
  { s with menus := Function.update s.menus m (f (s.menus m)) }

/-- Updates the item object behind a reference. -/
def State.modifyItem (i : ItemRef) (f : MenuBarItem → MenuBarItem) (s : State) : State :=
  { s with items := Function.update s.items i (f (s.items i)) }

/-- Sets the hidden flag of a menu object. -/
def Menu.setHidden (h : Bool) (x : Menu) : Menu :=
  { x with base := { x.base with hidden := h } }

/-! ## Collaborators of the source file -/

/-- Modelled from the spec: `Menu.Hide` is not in the source file; hiding is the
widget base's visibility bookkeeping. -/
def Menu.Hide (m : MenuRef) (s : State) : State :=
  (s.modifyMenu m (Menu.setHidden true)).record (Call.menuHide m)

/-- Modelled from the spec: `Menu.Show` is not in the source file; showing is the
widget base's visibility bookkeeping. -/
def Menu.Show (m : MenuRef) (s : State) : State :=
  (s.modifyMenu m (Menu.setHidden false)).record (Call.menuShow m)

/-- Modelled from the spec: `Menu.Visible` is not in the source file. -/
def Menu.Visible (m : MenuRef) (s : State) : Bool :=
  !(s.menus m).base.hidden

/-- Modelled from the spec: `Menu.Size` is not in the source file. -/
def Menu.Size (m : MenuRef) (s : State) : Fyne.Size :=
  (s.menus m).base.size

/-- Modelled from the spec: `Menu.MinSize` is not in the source file; it is the
dropdown's natural minimum size. -/
def Menu.MinSize (m : MenuRef) (s : State) : Fyne.Size :=
  (s.menus m).minSize

/-- Modelled from the spec: `Menu.Resize` is not in the source file; resizing is
the widget base's size bookkeeping. -/
def Menu.Resize (m : MenuRef) (size : Fyne.Size) (s : State) : State :=
  (s.modifyMenu m (fun x => { x with base := { x.base with size := size } })).record
    (Call.menuResize m size)

/-- Modelled from the spec: `Menu.Move` is not in the source file; moving is the
widget base's position bookkeeping. -/
def Menu.Move (m : MenuRef) (pos : Position) (s : State) : State :=
  (s.modifyMenu m (fun x => { x with base := { x.base with position := pos } })).record
    (Call.menuMove m pos)

/-- Modelled from the spec: `Menu.DeactivateChild` is not in the source file; if
the dropdown has an open descendant submenu, that submenu is closed. -/
def Menu.DeactivateChild (m : MenuRef) (s : State) : State :=
  (match (s.menus m).activeChild with
    | some c => (s.modifyMenu c (Menu.setHidden true)).modifyMenu m
        (fun x => { x with activeChild := none })
    | none => s).record (Call.menuDeactivateChild m)

/-- Modelled from the spec: `MenuBar.activate` is not in the source file; it
activates the bar. -/
def MenuBar.activate (s : State) : State :=
  { s with bar := { s.bar with active := true } }.record Call.barActivate

/-- Modelled from the spec: `MenuBar.deactivate` is not in the source file; it
clears the active flag, and hides and clears the active child. -/
def MenuBar.deactivate (s : State) : State :=
  let s1 := match s.bar.activeChild with
    | some a => s.modifyMenu a (Menu.setHidden true)
    | none => s
  { s1 with bar := { active := false, activeChild := none } }.record Call.barDeactivate

/-- Modelled from the spec: `widget.RefreshWidget` is not in the source file; it
triggers a redraw and changes no state of the bar. -/
def RefreshWidget (i : ItemRef) (s : State) : State :=
  s.record (Call.refreshWidget i)

/-- Modelled from the spec: `widget.ResizeWidget` is not in the source file; it
is the widget base's size bookkeeping. -/
def ResizeWidget (i : ItemRef) (size : Size) (s : State) : State :=
  (s.modifyItem i (fun x => { x with base := { x.base with size := size } })).record
    (Call.resizeWidget i size)

/-! ## The methods of `MenuBarItem` -/

/-- The method `MenuBarItem.Size` (promoted from `widget.Base`). -/
def MenuBarItem.Size (i : ItemRef) (s : State) : Fyne.Size :=
  (s.items i).base.size

/-- The method `MenuBarItem.Refresh`. -/
def MenuBarItem.Refresh (i : ItemRef) (s : State) : State :=
  RefreshWidget i s

/-- The method `MenuBarItem.updateChildPosition`: `i.Child.Move(...)` with no
presence check.  `Move` writes the position kept in the menu object, so on a nil
`Child` it dereferences a nil pointer: the result is `none`. -/
def MenuBarItem.updateChildPosition (i : ItemRef) (s : State) : Option State :=
  match (s.items i).Child with
  | some c => some (Menu.Move c (NewPos 0 (MenuBarItem.Size i s).Height) s)
  | none => none

/-- The method `MenuBarItem.activateChild`. -/
def MenuBarItem.activateChild (i : ItemRef) (s : State) : Option State :=
  let s1 := match (s.items i).Child with
    | some c => Menu.DeactivateChild c s
    | none => s
  if s1.bar.activeChild = (s1.items i).Child then
    some s1
  else
    let s2 := match s1.bar.activeChild with
      | some a => Menu.Hide a s1
      | none => s1
    let s3 := { s2 with bar := { s2.bar with activeChild := (s2.items i).Child } }
    match (s3.items i).Child with
    | some c =>
      (if (Menu.Size c s3).IsZero then
        MenuBarItem.updateChildPosition i (Menu.Resize c (Menu.MinSize c s3) s3)
      else
        some s3).map (Menu.Show c)
    | none => some s3

/-- The method `MenuBarItem.MouseIn`. -/
def MenuBarItem.MouseIn (i : ItemRef) (s : State) : Option State :=
  if s.bar.active then
    (MenuBarItem.activateChild i (s.modifyItem i (fun x => { x with hovered := true }))).map
      (MenuBarItem.Refresh i)
  else
    some (MenuBarItem.Refresh i (s.modifyItem i (fun x => { x with hovered := true })))

/-- The method `MenuBarItem.MouseMoved`: does nothing. -/
def MenuBarItem.MouseMoved (_i : ItemRef) (s : State) : State := s

/-- The method `MenuBarItem.MouseOut`. -/
def MenuBarItem.MouseOut (i : ItemRef) (s : State) : State :=
  MenuBarItem.Refresh i (s.modifyItem i (fun x => { x with hovered := false }))

/-- The method `MenuBarItem.Resize`. -/
def MenuBarItem.Resize (i : ItemRef) (size : Fyne.Size) (s : State) : Option State :=
  MenuBarItem.updateChildPosition i (ResizeWidget i size s)

/-- The method `MenuBarItem.Tapped`. -/
def MenuBarItem.Tapped (i : ItemRef) (s : State) : Option State :=
  (if s.bar.active then
    some (MenuBar.deactivate s)
  else
    MenuBarItem.activateChild i (MenuBar.activate s)).map (MenuBarItem.Refresh i)

/-! ## The renderer -/

/-- What `BackgroundColor` returns: `theme.HoverColor()` or `color.Transparent`. -/
inductive Color where
  | hoverColor
  | transparent
deriving DecidableEq, Repr

/-- The method `menuBarItemRenderer.BackgroundColor`, for the renderer of item `i`. -/
def menuBarItemRenderer.BackgroundColor (i : ItemRef) (s : State) : Color :=
  if (s.items i).hovered || (match (s.items i).Child with
      | some c => Menu.Visible c s
      | none => false) then
    Color.hoverColor
  else
    Color.transparent

/-! ## Events and intermediate states -/

/-- The operations of the source file that a bar item can receive. -/
inductive Event where
  | mouseIn (i : ItemRef)
  | mouseMoved (i : ItemRef)
  | mouseOut (i : ItemRef)
  | tapped (i : ItemRef)
  | resize (i : ItemRef) (size : Size)
  | activateChild (i : ItemRef)
deriving DecidableEq, Repr

/-- The effect of one event. -/
def Event.apply : Event → State → Option State
  | Event.mouseIn i, s => MenuBarItem.MouseIn i s
  | Event.mouseMoved i, s => some (MenuBarItem.MouseMoved i s)
  | Event.mouseOut i, s => some (MenuBarItem.MouseOut i s)
  | Event.tapped i, s => MenuBarItem.Tapped i s
  | Event.resize i size, s => MenuBarItem.Resize i size s
  | Event.activateChild i, s => MenuBarItem.activateChild i s

/-- The effect of a sequence of events, in order. -/
def runEvents : List Event → State → Option State
  | [], s => some s
  | e :: rest, s => (e.apply s).bind (runEvents rest)

/-- The state after the previous active child, if any, was hidden (the second
conditional of `activateChild`). -/
def hideActive (s : State) : State :=
  match s.bar.activeChild with
  | some a => Menu.Hide a s
  | none => s

/-- The state after `o` was recorded as the bar's active child. -/
def setActiveChild (o : Option MenuRef) (s : State) : State :=
  { s with bar := { s.bar with activeChild := o } }

/-- The state after the dropdown `c` of item `i` was sized, if it never was, and
shown (the last conditional of `activateChild`). -/
def sizeAndShow (i : ItemRef) (c : MenuRef) (s : State) : State :=
  Menu.Show c
    (if (Menu.Size c s).IsZero then
      Menu.Move c (NewPos 0 (MenuBarItem.Size i s).Height) (Menu.Resize c (Menu.MinSize c s) s)
    else s)

/-! ## Specification vocabulary -/

/-- The menu `m` is the child dropdown of some item of the bar. -/
def IsChildDropdown (s : State) (m : MenuRef) : Prop :=
  ∃ i, (s.items i).Child = some m

/-- The only child dropdown that may be visible is the one the bar's `activeChild`
refers to. -/
def VisibleOnlyActiveChild (s : State) : Prop :=
  ∀ m, IsChildDropdown s m → Menu.Visible m s = true → s.bar.activeChild = some m

/-- At most one child dropdown of the bar is visible. -/
def AtMostOneVisible (s : State) : Prop :=
  ∀ m n, IsChildDropdown s m → IsChildDropdown s n →
    Menu.Visible m s = true → Menu.Visible n s = true → m = n

/-- The calls `added` contain no `Resize` of the dropdown `c`. -/
def NoResizeOf (c : MenuRef) (added : List Call) : Prop :=
  ∀ size, Call.menuResize c size ∉ added

/-- Going from state `s` to state `t` kept the size of the dropdown `c` and made no
`Resize` call on it. -/
def KeepsSize (c : MenuRef) (s t : State) : Prop :=
  Menu.Size c t = Menu.Size c s ∧ ∃ added, t.calls = s.calls ++ added ∧ NoResizeOf c added

/-- A sequence of pointer-enter events, one per listed item, in order. -/
def mouseInSeq : List ItemRef → State → Option State
  | [], s => some s
  | i :: rest, s => (MenuBarItem.MouseIn i s).bind (mouseInSeq rest)

/-! ## Concrete states -/

/-- A widget base with zero position and zero size. -/
def zeroBase (hidden : Bool) : Base := ⟨hidden, NewPos 0 0, NewSize 0 0⟩

/-- An item as constructed, before its renderer exists: no child, not hovered. -/
def leafItem : MenuBarItem := ⟨zeroBase false, none, false⟩

/-- An item of height 20 whose child dropdown is `c`. -/
def itemWith (c : MenuRef) : MenuBarItem := ⟨⟨false, NewPos 0 0, NewSize 50 20⟩, some c, false⟩

/-- A dropdown as created by `CreateRenderer`: hidden, never sized, nothing open. -/
def freshMenu (minSize : Size) : Menu := ⟨zeroBase true, minSize, none⟩

/-- A bar whose items all lack a child dropdown. -/
def leafState : State :=
  { bar := ⟨false, none⟩
    items := fun _ => leafItem
    menus := fun _ => freshMenu (NewSize 80 60)
    calls := [] }

/-- A bar with item 0 owning dropdown 10 and item 1 owning dropdown 11; every other
item has no child.  All dropdowns are fresh, with minimum size `minSize`. -/
def twoItemState (active : Bool) (activeChild : Option MenuRef) (minSize : Size) : State :=
  { bar := ⟨active, activeChild⟩
    items := fun i => if i = 0 then itemWith 10 else if i = 1 then itemWith 11 else leafItem
    menus := fun _ => freshMenu minSize
    calls := [] }

/-- Item 0 owns dropdown 10, which is shown as the active child of an active bar
and has its nested submenu 12 open; item 1 owns dropdown 11, hidden and never
sized; every other item has no child. -/
def nestedState : State :=
  { bar := ⟨true, some 10⟩
    items := fun i => if i = 0 then itemWith 10 else if i = 1 then itemWith 11 else leafItem
    menus := fun m =>
      if m = 10 then ⟨⟨false, NewPos 0 20, NewSize 80 60⟩, NewSize 80 60, some 12⟩
      else if m = 12 then ⟨⟨false, NewPos 80 0, NewSize 70 40⟩, NewSize 70 40, none⟩
      else freshMenu (NewSize 80 60)
    calls := [] }

/-! ## Effects of the collaborators -/

section Frame
variable (m a c : MenuRef) (s : State) (size : Fyne.Size) (pos : Position)

@[simp] theorem Hide_bar : (Menu.Hide a s).bar = s.bar := rfl
@[simp] theorem Hide_items : (Menu.Hide a s).items = s.items := rfl
@[simp] theorem Hide_calls : (Menu.Hide a s).calls = s.calls ++ [Call.menuHide a] := rfl
@[simp] theorem Show_bar : (Menu.Show a s).bar = s.bar := rfl
@[simp] theorem Show_items : (Menu.Show a s).items = s.items := rfl
@[simp] theorem Show_calls : (Menu.Show a s).calls = s.calls ++ [Call.menuShow a] := rfl
@[simp] theorem Resize_bar : (Menu.Resize a size s).bar = s.bar := rfl
@[simp] theorem Resize_items : (Menu.Resize a size s).items = s.items := rfl
@[simp] theorem Resize_calls :
    (Menu.Resize a size s).calls = s.calls ++ [Call.menuResize a size] := rfl
@[simp] theorem Move_bar : (Menu.Move a pos s).bar = s.bar := rfl
@[simp] theorem Move_items : (Menu.Move a pos s).items = s.items := rfl
@[simp] theorem Move_calls :
    (Menu.Move a pos s).calls = s.calls ++ [Call.menuMove a pos] := rfl
@[simp] theorem DeactivateChild_bar : (Menu.DeactivateChild a s).bar = s.bar := by
  unfold Menu.DeactivateChild; cases (s.menus a).activeChild <;> rfl
@[simp] theorem DeactivateChild_items : (Menu.DeactivateChild a s).items = s.items := by
  unfold Menu.DeactivateChild; cases (s.menus a).activeChild <;> rfl
@[simp] theorem DeactivateChild_calls :
    (Menu.DeactivateChild a s).calls = s.calls ++ [Call.menuDeactivateChild a] := by
  unfold Menu.DeactivateChild; cases (s.menus a).activeChild <;> rfl

theorem Visible_Hide : Menu.Visible m (Menu.Hide a s) = (if m = a then false else Menu.Visible m s) := by
  by_cases h : m = a <;>
    simp [Menu.Visible, Menu.Hide, State.record, State.modifyMenu, Function.update_apply,
      Menu.setHidden, h]

theorem Visible_Show : Menu.Visible m (Menu.Show a s) = (if m = a then true else Menu.Visible m s) := by
  by_cases h : m = a <;>
    simp [Menu.Visible, Menu.Show, State.record, State.modifyMenu, Function.update_apply,
      Menu.setHidden, h]

@[simp] theorem Visible_Resize : Menu.Visible m (Menu.Resize a size s) = Menu.Visible m s := by
  simp [Menu.Visible, Menu.Resize, State.record, State.modifyMenu, Function.update_apply]
  split_ifs with h <;> simp [h]

@[simp] theorem Visible_Move : Menu.Visible m (Menu.Move a pos s) = Menu.Visible m s := by
  simp [Menu.Visible, Menu.Move, State.record, State.modifyMenu, Function.update_apply]
  split_ifs with h <;> simp [h]

theorem Visible_DeactivateChild (h : Menu.Visible m (Menu.DeactivateChild a s) = true) :
    Menu.Visible m s = true := by
  unfold Menu.DeactivateChild at h
  cases hn : (s.menus a).activeChild with
  | none => simpa [hn, Menu.Visible, State.record] using h
  | some n =>
    simp [hn, Menu.Visible, State.record, State.modifyMenu, Function.update_apply, Menu.setHidden] at h
    split_ifs at h with h1 h2 <;> simp_all [Menu.Visible]

end Frame

theorem updateChildPosition_of_some (i : ItemRef) (c : MenuRef) (s : State)
    (h : (s.items i).Child = some c) :
    MenuBarItem.updateChildPosition i s =
      some (Menu.Move c (NewPos 0 (MenuBarItem.Size i s).Height) s) := by
  simp [MenuBarItem.updateChildPosition, h]

/-- With no child and no active child nothing happens. -/
theorem activateChild_none_none (i : ItemRef) (s : State)
    (hc : (s.items i).Child = none) (ha : s.bar.activeChild = none) :
    MenuBarItem.activateChild i s = some s := by
  simp [MenuBarItem.activateChild, hc, ha]

/-- With no child, the active child is hidden and the reference cleared. -/
theorem activateChild_none_some (i : ItemRef) (a : MenuRef) (s : State)
    (hc : (s.items i).Child = none) (ha : s.bar.activeChild = some a) :
    MenuBarItem.activateChild i s =
      some { Menu.Hide a s with bar := { s.bar with activeChild := none } } := by
  simp [MenuBarItem.activateChild, hc, ha]

/-- When the child is already the active child, only its nested submenu is closed. -/
theorem activateChild_same (i : ItemRef) (c : MenuRef) (s : State)
    (hc : (s.items i).Child = some c) (ha : s.bar.activeChild = some c) :
    MenuBarItem.activateChild i s = some (Menu.DeactivateChild c s) := by
  simp [MenuBarItem.activateChild, hc, ha]

/-- When the child is not the active child, the operation switches to it. -/
theorem activateChild_switch (i : ItemRef) (c : MenuRef) (s : State)
    (hc : (s.items i).Child = some c) (ha : s.bar.activeChild ≠ some c) :
    MenuBarItem.activateChild i s =
      some (sizeAndShow i c (setActiveChild (some c) (hideActive (Menu.DeactivateChild c s)))) := by
  cases hb : s.bar.activeChild with
  | none =>
    simp [MenuBarItem.activateChild, hc, hb, hideActive, setActiveChild, sizeAndShow]
    split_ifs with hz
    · simp [MenuBarItem.updateChildPosition, hc, MenuBarItem.Size]
    · simp
  | some a =>
    have hne : a ≠ c := fun h => ha (by rw [hb, h])
    simp [MenuBarItem.activateChild, hc, hb, hideActive, setActiveChild, sizeAndShow, hne]
    split_ifs with hz
    · simp [MenuBarItem.updateChildPosition, hc, MenuBarItem.Size]
    · simp

@[simp] theorem hideActive_items (s : State) : (hideActive s).items = s.items := by
  unfold hideActive; cases s.bar.activeChild <;> rfl

@[simp] theorem hideActive_bar (s : State) : (hideActive s).bar = s.bar := by
  unfold hideActive; cases s.bar.activeChild <;> rfl

@[simp] theorem setActiveChild_items (o : Option MenuRef) (s : State) :
    (setActiveChild o s).items = s.items := rfl

@[simp] theorem setActiveChild_menus (o : Option MenuRef) (s : State) :
    (setActiveChild o s).menus = s.menus := rfl

@[simp] theorem setActiveChild_calls (o : Option MenuRef) (s : State) :
    (setActiveChild o s).calls = s.calls := rfl

@[simp] theorem setActiveChild_active (o : Option MenuRef) (s : State) :
    (setActiveChild o s).bar.active = s.bar.active := rfl

@[simp] theorem setActiveChild_activeChild (o : Option MenuRef) (s : State) :
    (setActiveChild o s).bar.activeChild = o := rfl

@[simp] theorem sizeAndShow_items (i : ItemRef) (c : MenuRef) (s : State) :
    (sizeAndShow i c s).items = s.items := by
  unfold sizeAndShow; split_ifs <;> rfl

@[simp] theorem sizeAndShow_bar (i : ItemRef) (c : MenuRef) (s : State) :
    (sizeAndShow i c s).bar = s.bar := by
  unfold sizeAndShow; split_ifs <;> rfl

theorem Visible_setActiveChild (m : MenuRef) (o : Option MenuRef) (s : State) :
    Menu.Visible m (setActiveChild o s) = Menu.Visible m s := rfl

theorem Visible_hideActive (m : MenuRef) (s : State)
    (h : Menu.Visible m (hideActive s) = true) :
    Menu.Visible m s = true ∧ s.bar.activeChild ≠ some m := by
  unfold hideActive at h
  cases ha : s.bar.activeChild with
  | none => simp [ha] at h; simp [h]
  | some a =>
    simp only [ha, Visible_Hide] at h
    by_cases hm : m = a
    · simp [hm] at h
    · simp [hm] at h
      exact ⟨h, fun hh => hm (Option.some.inj hh).symm⟩

theorem Visible_sizeAndShow (m : MenuRef) (i : ItemRef) (c : MenuRef) (s : State) :
    Menu.Visible m (sizeAndShow i c s) = (if m = c then true else Menu.Visible m s) := by
  unfold sizeAndShow
  rw [Visible_Show]
  split_ifs <;> simp

/-- The switch-menu operation always returns; it leaves the items and the active
flag alone and makes the bar's active child the item's child. -/
theorem activateChild_post (i : ItemRef) (s : State) :
    ∃ s1, MenuBarItem.activateChild i s = some s1 ∧ s1.items = s.items ∧
      s1.bar.active = s.bar.active ∧ s1.bar.activeChild = (s.items i).Child := by
  cases hc : (s.items i).Child with
  | none =>
    cases ha : s.bar.activeChild with
    | none => exact ⟨_, activateChild_none_none i s hc ha, rfl, rfl, ha⟩
    | some a => exact ⟨_, activateChild_none_some i a s hc ha, rfl, rfl, rfl⟩
  | some c =>
    by_cases ha : s.bar.activeChild = some c
    · exact ⟨_, activateChild_same i c s hc ha, by simp, by simp, by simp [ha]⟩
    · exact ⟨_, activateChild_switch i c s hc ha, by simp, by simp, by simp⟩

/-- A dropdown visible after the switch-menu operation is the item's child, or was
visible before and was not a replaced active child. -/
theorem activateChild_visible (i : ItemRef) (s s1 : State)
    (h : MenuBarItem.activateChild i s = some s1) (m : MenuRef)
    (hv : Menu.Visible m s1 = true) :
    (s.items i).Child = some m ∨
      (Menu.Visible m s = true ∧
        (s.bar.activeChild ≠ some m ∨ s.bar.activeChild = (s.items i).Child)) := by
  cases hc : (s.items i).Child with
  | none =>
    right
    cases ha : s.bar.activeChild with
    | none =>
      rw [activateChild_none_none i s hc ha] at h
      cases h
      exact ⟨hv, Or.inl (by simp)⟩
    | some a =>
      rw [activateChild_none_some i a s hc ha] at h
      cases h
      have hv2 : Menu.Visible m (Menu.Hide a s) = true := hv
      rw [Visible_Hide] at hv2
      by_cases hm : m = a
      · simp [hm] at hv2
      · simp [hm] at hv2
        exact ⟨hv2, Or.inl (fun hh => hm (Option.some.inj hh).symm)⟩
  | some c =>
    by_cases ha : s.bar.activeChild = some c
    · rw [activateChild_same i c s hc ha] at h
      cases h
      exact Or.inr ⟨Visible_DeactivateChild m c s hv, Or.inr ha⟩
    · rw [activateChild_switch i c s hc ha] at h
      cases h
      rw [Visible_sizeAndShow] at hv
      by_cases hm : m = c
      · left; rw [hm]
      · right
        simp only [hm, if_false, Visible_setActiveChild] at hv
        have h2 := Visible_hideActive m _ hv
        refine ⟨Visible_DeactivateChild m c s h2.1, Or.inl ?_⟩
        simpa using h2.2

theorem Child_modifyItem_hovered (i j : ItemRef) (b : Bool) (s : State) :
    ((s.modifyItem i (fun x => { x with hovered := b })).items j).Child =
      (s.items j).Child := by
  by_cases h : j = i
  · subst h; simp [State.modifyItem]
  · simp [State.modifyItem, Function.update_noteq h]

/-- One pointer-enter on an active bar returns and keeps the bar active, the child
references, and the property that only the active child may be visible. -/
theorem MouseIn_active_step (i : ItemRef) (s : State)
    (hactive : s.bar.active = true) (hinv : VisibleOnlyActiveChild s) :
    ∃ s1, MenuBarItem.MouseIn i s = some s1 ∧ s1.bar.active = true ∧
      VisibleOnlyActiveChild s1 ∧ (∀ j, (s1.items j).Child = (s.items j).Child) ∧
      s1.bar.activeChild = (s.items i).Child := by
  obtain ⟨s1, h1, hitems, hact, hchild⟩ :=
    activateChild_post i (s.modifyItem i (fun x => { x with hovered := true }))
  have hC : ∀ j, (s1.items j).Child = (s.items j).Child := by
    intro j; rw [hitems]; exact Child_modifyItem_hovered i j true s
  refine ⟨MenuBarItem.Refresh i s1, ?_, ?_, ?_, hC, ?_⟩
  · simp [MenuBarItem.MouseIn, hactive, h1]
  · exact hact.trans hactive
  · intro m hm hv
    obtain ⟨j, hj⟩ := hm
    have hj1 : (s1.items j).Child = some m := hj
    rw [hC j] at hj1
    show s1.bar.activeChild = some m
    rw [hchild, Child_modifyItem_hovered]
    rcases activateChild_visible i _ s1 h1 m hv with h | ⟨hvs, h⟩
    · rw [Child_modifyItem_hovered] at h; exact h
    · have hold : s.bar.activeChild = some m := hinv m ⟨j, hj1⟩ hvs
      rcases h with h | h
      · exact absurd hold h
      · rw [Child_modifyItem_hovered] at h
        rw [← h]; exact hold
  · show s1.bar.activeChild = _
    rw [hchild, Child_modifyItem_hovered]

/-- Any sequence of pointer-enters on an active bar returns and keeps the bar
active and the property that only the active child may be visible. -/
theorem mouseInSeq_preserves (evs : List ItemRef) :
    ∀ s : State, s.bar.active = true → VisibleOnlyActiveChild s →
      ∃ s1, mouseInSeq evs s = some s1 ∧ s1.bar.active = true ∧
        VisibleOnlyActiveChild s1 := by
  induction evs with
  | nil => intro s ha hi; exact ⟨s, rfl, ha, hi⟩
  | cons i rest ih =>
    intro s ha hi
    obtain ⟨s1, h1, ha1, hi1, _, _⟩ := MouseIn_active_step i s ha hi
    obtain ⟨s2, h2, ha2, hi2⟩ := ih s1 ha1 hi1
    exact ⟨s2, by simp [mouseInSeq, h1, h2], ha2, hi2⟩

theorem AtMostOneVisible_of_only (s : State) (h : VisibleOnlyActiveChild s) :
    AtMostOneVisible s := by
  intro m n hm hn hvm hvn
  have h1 := h m hm hvm
  have h2 := h n hn hvn
  rw [h1] at h2
  exact Option.some.inj h2

theorem Size_modifyMenu (m a : MenuRef) (f : Menu → Menu) (s : State)
    (hf : ∀ x, (f x).base.size = x.base.size) :
    Menu.Size m (s.modifyMenu a f) = Menu.Size m s := by
  by_cases h : m = a
  · subst h; simp [Menu.Size, State.modifyMenu, hf]
  · simp [Menu.Size, State.modifyMenu, Function.update_noteq h]

theorem MinSize_modifyMenu (m a : MenuRef) (f : Menu → Menu) (s : State)
    (hf : ∀ x, (f x).minSize = x.minSize) :
    Menu.MinSize m (s.modifyMenu a f) = Menu.MinSize m s := by
  by_cases h : m = a
  · subst h; simp [Menu.MinSize, State.modifyMenu, hf]
  · simp [Menu.MinSize, State.modifyMenu, Function.update_noteq h]

section SizeFrame
variable (m a : MenuRef) (s : State) (size : Fyne.Size) (pos : Position)

@[simp] theorem Size_Hide : Menu.Size m (Menu.Hide a s) = Menu.Size m s := by
  by_cases h : m = a <;>
    simp [Menu.Size, Menu.Hide, State.record, State.modifyMenu, Function.update_apply,
      Menu.setHidden, h]

@[simp] theorem Size_Show : Menu.Size m (Menu.Show a s) = Menu.Size m s := by
  by_cases h : m = a <;>
    simp [Menu.Size, Menu.Show, State.record, State.modifyMenu, Function.update_apply,
      Menu.setHidden, h]

@[simp] theorem Size_Move : Menu.Size m (Menu.Move a pos s) = Menu.Size m s := by
  by_cases h : m = a <;>
    simp [Menu.Size, Menu.Move, State.record, State.modifyMenu, Function.update_apply, h]

theorem Size_Resize :
    Menu.Size m (Menu.Resize a size s) = (if m = a then size else Menu.Size m s) := by
  by_cases h : m = a <;>
    simp [Menu.Size, Menu.Resize, State.record, State.modifyMenu, Function.update_apply, h]

@[simp] theorem Size_DeactivateChild :
    Menu.Size m (Menu.DeactivateChild a s) = Menu.Size m s := by
  unfold Menu.DeactivateChild
  cases hn : (s.menus a).activeChild with
  | none => rfl
  | some n =>
    exact (Size_modifyMenu m a (fun x => { x with activeChild := none }) (s.modifyMenu n (Menu.setHidden true)) (fun _ => rfl)).trans
      (Size_modifyMenu m n (Menu.setHidden true) s (fun _ => rfl))

@[simp] theorem Size_hideActive : Menu.Size m (hideActive s) = Menu.Size m s := by
  unfold hideActive; cases s.bar.activeChild <;> simp

@[simp] theorem Size_setActiveChild (o : Option MenuRef) :
    Menu.Size m (setActiveChild o s) = Menu.Size m s := rfl

@[simp] theorem MinSize_Hide : Menu.MinSize m (Menu.Hide a s) = Menu.MinSize m s := by
  by_cases h : m = a <;>
    simp [Menu.MinSize, Menu.Hide, State.record, State.modifyMenu, Function.update_apply,
      Menu.setHidden, h]

@[simp] theorem MinSize_DeactivateChild :
    Menu.MinSize m (Menu.DeactivateChild a s) = Menu.MinSize m s := by
  unfold Menu.DeactivateChild
  cases hn : (s.menus a).activeChild with
  | none => rfl
  | some n =>
    exact (MinSize_modifyMenu m a (fun x => { x with activeChild := none }) (s.modifyMenu n (Menu.setHidden true)) (fun _ => rfl)).trans
      (MinSize_modifyMenu m n (Menu.setHidden true) s (fun _ => rfl))

@[simp] theorem MinSize_hideActive : Menu.MinSize m (hideActive s) = Menu.MinSize m s := by
  unfold hideActive; cases s.bar.activeChild <;> simp

@[simp] theorem MinSize_setActiveChild (o : Option MenuRef) :
    Menu.MinSize m (setActiveChild o s) = Menu.MinSize m s := rfl

end SizeFrame

theorem hideActive_calls (s : State) :
    (hideActive s).calls = s.calls ++ (s.bar.activeChild.map Call.menuHide).toList := by
  unfold hideActive; cases s.bar.activeChild <;> simp

theorem sizeAndShow_calls (i : ItemRef) (c : MenuRef) (s : State) :
    (sizeAndShow i c s).calls =
      s.calls ++ ((if (Menu.Size c s).IsZero then
        [Call.menuResize c (Menu.MinSize c s),
          Call.menuMove c (NewPos 0 (MenuBarItem.Size i s).Height)]
      else []) ++ [Call.menuShow c]) := by
  unfold sizeAndShow; split_ifs <;> simp

theorem Size_sizeAndShow (m : MenuRef) (i : ItemRef) (c : MenuRef) (s : State) :
    Menu.Size m (sizeAndShow i c s) =
      (if m = c ∧ (Menu.Size c s).IsZero = true then Menu.MinSize c s else Menu.Size m s) := by
  unfold sizeAndShow
  by_cases hz : (Menu.Size c s).IsZero = true <;> by_cases hm : m = c <;>
    simp [hz, hm, Size_Resize]

/-- The calls of the switch-menu operation when it switches: close the nested
submenu of the new dropdown, hide the old dropdown if any, size the new dropdown
if it never was, show it. -/
theorem activateChild_switch_calls (i : ItemRef) (c : MenuRef) (s s1 : State)
    (hc : (s.items i).Child = some c) (ha : s.bar.activeChild ≠ some c)
    (h : MenuBarItem.activateChild i s = some s1) :
    s1.calls = s.calls ++ ([Call.menuDeactivateChild c] ++
      (s.bar.activeChild.map Call.menuHide).toList ++
      (if (Menu.Size c s).IsZero then
        [Call.menuResize c (Menu.MinSize c s),
          Call.menuMove c (NewPos 0 (MenuBarItem.Size i s).Height)]
      else []) ++ [Call.menuShow c]) := by
  rw [activateChild_switch i c s hc ha] at h
  cases h
  rw [sizeAndShow_calls]
  simp [hideActive_calls, MenuBarItem.Size]

theorem nested_modifyMenu (m a : MenuRef) (f : Menu → Menu) (s : State)
    (hf : ∀ x, (f x).activeChild = x.activeChild) :
    ((s.modifyMenu a f).menus m).activeChild = (s.menus m).activeChild := by
  by_cases h : m = a
  · subst h; simp [State.modifyMenu, hf]
  · simp [State.modifyMenu, Function.update_noteq h]

theorem nested_Hide (m a : MenuRef) (s : State) :
    ((Menu.Hide a s).menus m).activeChild = (s.menus m).activeChild :=
  nested_modifyMenu m a (Menu.setHidden true) s (fun _ => rfl)

theorem nested_Show (m a : MenuRef) (s : State) :
    ((Menu.Show a s).menus m).activeChild = (s.menus m).activeChild :=
  nested_modifyMenu m a (Menu.setHidden false) s (fun _ => rfl)

theorem nested_Move (m a : MenuRef) (pos : Position) (s : State) :
    ((Menu.Move a pos s).menus m).activeChild = (s.menus m).activeChild :=
  nested_modifyMenu m a (fun x => { x with base := { x.base with position := pos } }) s
    (fun _ => rfl)

theorem nested_Resize (m a : MenuRef) (size : Size) (s : State) :
    ((Menu.Resize a size s).menus m).activeChild = (s.menus m).activeChild :=
  nested_modifyMenu m a (fun x => { x with base := { x.base with size := size } }) s
    (fun _ => rfl)

theorem nested_sizeAndShow (m : MenuRef) (i : ItemRef) (c : MenuRef) (s : State) :
    ((sizeAndShow i c s).menus m).activeChild = (s.menus m).activeChild := by
  unfold sizeAndShow
  split_ifs
  · rw [nested_Show, nested_Move, nested_Resize]
  · rw [nested_Show]

/-- Closing the nested submenu of one dropdown leaves the nested submenu reference
of every other dropdown alone. -/
theorem nested_DeactivateChild_of_ne (m a : MenuRef) (s : State) (h : m ≠ a) :
    ((Menu.DeactivateChild a s).menus m).activeChild = (s.menus m).activeChild := by
  unfold Menu.DeactivateChild
  cases hn : (s.menus a).activeChild with
  | none => rfl
  | some n =>
    show ((State.modifyMenu a (fun x => { x with activeChild := none })
      (s.modifyMenu n (Menu.setHidden true))).menus m).activeChild = _
    simp only [State.modifyMenu, Function.update_noteq h]
    exact nested_modifyMenu m n (Menu.setHidden true) s (fun _ => rfl)

theorem KeepsSize.refl (c : MenuRef) (s : State) : KeepsSize c s s :=
  ⟨rfl, [], by simp, fun _ h => by cases h⟩

theorem KeepsSize.trans {c : MenuRef} {s t u : State} (h1 : KeepsSize c s t)
    (h2 : KeepsSize c t u) : KeepsSize c s u := by
  obtain ⟨e1, a1, c1, n1⟩ := h1
  obtain ⟨e2, a2, c2, n2⟩ := h2
  refine ⟨e2.trans e1, a1 ++ a2, by rw [c2, c1, List.append_assoc], ?_⟩
  intro size hm
  rcases List.mem_append.mp hm with h | h
  · exact n1 size h
  · exact n2 size h

/-- A step that keeps the menu sizes and logs one call that is no `Resize`. -/
theorem KeepsSize.of_call (c : MenuRef) (s t : State) (x : Call)
    (hsize : Menu.Size c t = Menu.Size c s) (hcalls : t.calls = s.calls ++ [x])
    (hx : ∀ m size, x ≠ Call.menuResize m size) : KeepsSize c s t :=
  ⟨hsize, [x], hcalls, fun size h => hx c size (List.mem_singleton.mp h).symm⟩

theorem KeepsSize_DeactivateChild (c a : MenuRef) (s : State) :
    KeepsSize c s (Menu.DeactivateChild a s) :=
  KeepsSize.of_call c s _ (Call.menuDeactivateChild a) (by simp) (by simp)
    (fun _ _ h => by cases h)

theorem KeepsSize_Hide (c a : MenuRef) (s : State) : KeepsSize c s (Menu.Hide a s) :=
  KeepsSize.of_call c s _ (Call.menuHide a) (by simp) (by simp) (fun _ _ h => by cases h)

theorem KeepsSize_Move (c a : MenuRef) (pos : Position) (s : State) :
    KeepsSize c s (Menu.Move a pos s) :=
  KeepsSize.of_call c s _ (Call.menuMove a pos) (by simp) (by simp) (fun _ _ h => by cases h)

theorem KeepsSize_Refresh (c : MenuRef) (i : ItemRef) (s : State) :
    KeepsSize c s (MenuBarItem.Refresh i s) :=
  KeepsSize.of_call c s _ (Call.refreshWidget i) rfl rfl (fun _ _ h => by cases h)

theorem KeepsSize_ResizeWidget (c : MenuRef) (i : ItemRef) (size : Size) (s : State) :
    KeepsSize c s (ResizeWidget i size s) :=
  KeepsSize.of_call c s _ (Call.resizeWidget i size) rfl rfl (fun _ _ h => by cases h)

theorem KeepsSize_activate (c : MenuRef) (s : State) : KeepsSize c s (MenuBar.activate s) :=
  KeepsSize.of_call c s _ Call.barActivate rfl rfl (fun _ _ h => by cases h)

theorem KeepsSize_deactivate (c : MenuRef) (s : State) :
    KeepsSize c s (MenuBar.deactivate s) := by
  refine KeepsSize.of_call c s _ Call.barDeactivate ?_ ?_ (fun _ _ h => by cases h)
  · unfold MenuBar.deactivate
    cases s.bar.activeChild with
    | none => rfl
    | some a => exact Size_modifyMenu c a (Menu.setHidden true) s (fun _ => rfl)
  · unfold MenuBar.deactivate
    cases s.bar.activeChild <;> rfl

theorem KeepsSize_modifyItem (c : MenuRef) (i : ItemRef) (f : MenuBarItem → MenuBarItem)
    (s : State) : KeepsSize c s (s.modifyItem i f) :=
  ⟨rfl, [], by simp [State.modifyItem], fun _ h => by cases h⟩

/-- The switch-menu operation does not resize a dropdown whose size is not zero. -/
theorem activateChild_keeps_size (i : ItemRef) (c : MenuRef) (s s1 : State)
    (h : MenuBarItem.activateChild i s = some s1) (hnz : (Menu.Size c s).IsZero = false) :
    KeepsSize c s s1 := by
  cases hc : (s.items i).Child with
  | none =>
    cases ha : s.bar.activeChild with
    | none =>
      rw [activateChild_none_none i s hc ha] at h
      cases h
      exact KeepsSize.refl c s
    | some a =>
      rw [activateChild_none_some i a s hc ha] at h
      cases h
      exact KeepsSize_Hide c a s
  | some d =>
    by_cases ha : s.bar.activeChild = some d
    · rw [activateChild_same i d s hc ha] at h
      cases h
      exact KeepsSize_DeactivateChild c d s
    · have hcalls := activateChild_switch_calls i d s s1 hc ha h
      rw [activateChild_switch i d s hc ha] at h
      cases h
      refine ⟨?_, _, hcalls, ?_⟩
      · rw [Size_sizeAndShow]
        by_cases hcd : c = d
        · subst hcd
          simp [hnz]
        · simp [hcd]
      · intro size hm
        by_cases hcd : c = d
        · subst hcd
          cases hs : s.bar.activeChild <;> simp [hnz, hs] at hm
        · have hdc : ¬ d = c := fun e => hcd e.symm
          cases hs : s.bar.activeChild <;> split_ifs at hm <;> simp [hs, hcd, hdc] at hm

/-- No event resizes a dropdown whose size is not zero. -/
theorem Event.keeps_size (e : Event) (c : MenuRef) (s t : State)
    (h : e.apply s = some t) (hnz : (Menu.Size c s).IsZero = false) : KeepsSize c s t := by
  cases e with
  | mouseIn i =>
    simp only [Event.apply, MenuBarItem.MouseIn] at h
    split_ifs at h
    · cases h1 : MenuBarItem.activateChild i (s.modifyItem i (fun x => { x with hovered := true }))
        with
      | none => simp [h1] at h
      | some s1 =>
        simp only [h1, Option.map_some', Option.some.injEq] at h
        subst h
        exact (KeepsSize_modifyItem c i _ s).trans
          ((activateChild_keeps_size i c _ s1 h1 hnz).trans (KeepsSize_Refresh c i s1))
    · cases h
      exact (KeepsSize_modifyItem c i _ s).trans (KeepsSize_Refresh c i _)
  | mouseMoved i =>
    cases h
    exact KeepsSize.refl c s
  | mouseOut i =>
    cases h
    exact (KeepsSize_modifyItem c i _ s).trans (KeepsSize_Refresh c i _)
  | tapped i =>
    simp only [Event.apply, MenuBarItem.Tapped] at h
    split_ifs at h
    · cases h
      exact (KeepsSize_deactivate c s).trans (KeepsSize_Refresh c i _)
    · cases h1 : MenuBarItem.activateChild i (MenuBar.activate s) with
      | none => simp [h1] at h
      | some s1 =>
        simp only [h1, Option.map_some', Option.some.injEq] at h
        subst h
        exact (KeepsSize_activate c s).trans
          ((activateChild_keeps_size i c _ s1 h1 hnz).trans (KeepsSize_Refresh c i s1))
  | resize i size =>
    simp only [Event.apply, MenuBarItem.Resize, MenuBarItem.updateChildPosition] at h
    split at h
    · cases h
      exact (KeepsSize_ResizeWidget c i size s).trans (KeepsSize_Move c _ _ _)
    · cases h
  | activateChild i => exact activateChild_keeps_size i c s t h hnz

/-- No sequence of events resizes a dropdown whose size is not zero. -/
theorem runEvents_keeps_size (evs : List Event) (c : MenuRef) :
    ∀ s t : State, runEvents evs s = some t → (Menu.Size c s).IsZero = false →
      KeepsSize c s t := by
  induction evs with
  | nil =>
    intro s t h _
    cases h
    exact KeepsSize.refl c s
  | cons e rest ih =>
    intro s t h hnz
    simp only [runEvents] at h
    cases h1 : e.apply s with
    | none => simp [h1] at h
    | some s1 =>
      simp only [h1, Option.some_bind] at h
      have k1 := Event.keeps_size e c s s1 h1 hnz
      have hnz1 : (Menu.Size c s1).IsZero = false := by rw [k1.1]; exact hnz
      exact k1.trans (ih s1 t h hnz1)

/-- The only child dropdown visible in `nestedState` is its active child. -/
theorem nestedState_visibleOnly : VisibleOnlyActiveChild nestedState := by
  intro m hm hv
  obtain ⟨i, hi⟩ := hm
  simp only [nestedState] at hi
  split_ifs at hi
  · simp only [itemWith, Option.some.injEq] at hi
    subst hi; rfl
  · simp only [itemWith, Option.some.injEq] at hi
    subst hi
    simp [Menu.Visible, nestedState, freshMenu, zeroBase] at hv
  · simp [leafItem] at hi

/-- Closing the nested submenu of a dropdown that is not its own submenu leaves
the dropdown's visibility alone. -/
theorem Visible_DeactivateChild_self (c : MenuRef) (s : State)
    (h : (s.menus c).activeChild ≠ some c) :
    Menu.Visible c (Menu.DeactivateChild c s) = Menu.Visible c s := by
  unfold Menu.DeactivateChild
  cases hn : (s.menus c).activeChild with
  | none => rfl
  | some n =>
    have hne : c ≠ n := fun e => h (by rw [hn, ← e])
    simp [Menu.Visible, State.record, State.modifyMenu, Menu.setHidden,
      Function.update_noteq hne]

/-! ## Theorems -/

/-- C8: pointer-leave only clears hover.  For every state and item, `MouseOut`
sets the item's hovered flag to false, leaves the bar (active flag and
`activeChild`) and every menu object, hence the visibility of every dropdown,
unchanged, and its only call is the refresh of the item. -/
theorem MouseOut_only_clears_hover (i : ItemRef) (s : State) :
    ((MenuBarItem.MouseOut i s).items i).hovered = false ∧
    (MenuBarItem.MouseOut i s).bar = s.bar ∧
    (MenuBarItem.MouseOut i s).menus = s.menus ∧
    (∀ m, Menu.Visible m (MenuBarItem.MouseOut i s) = Menu.Visible m s) ∧
    (∀ j, ((MenuBarItem.MouseOut i s).items j).Child = (s.items j).Child) ∧
    (MenuBarItem.MouseOut i s).calls = s.calls ++ [Call.refreshWidget i] := by
  refine ⟨?_, rfl, rfl, fun _ => rfl, ?_, rfl⟩
  · simp [MenuBarItem.MouseOut, MenuBarItem.Refresh, RefreshWidget, State.record,
      State.modifyItem]
  · intro j
    by_cases h : j = i
    · subst h
      simp [MenuBarItem.MouseOut, MenuBarItem.Refresh, RefreshWidget, State.record,
        State.modifyItem]
    · simp [MenuBarItem.MouseOut, MenuBarItem.Refresh, RefreshWidget, State.record,
        State.modifyItem, Function.update_noteq h]

/-- C7: hover alone does not change menus.  When the bar is inactive, `MouseIn`
on any item returns, sets that item's hovered flag to true and leaves the bar
(active flag and `activeChild`) and every menu object, hence the visibility of
every dropdown, unchanged. -/
theorem MouseIn_inactive_only_sets_hover (i : ItemRef) (s : State)
    (hinactive : s.bar.active = false) :
    ∃ s1, MenuBarItem.MouseIn i s = some s1 ∧
      (s1.items i).hovered = true ∧
      s1.bar = s.bar ∧
      s1.menus = s.menus ∧
      (∀ m, Menu.Visible m s1 = Menu.Visible m s) ∧
      s1.calls = s.calls ++ [Call.refreshWidget i] := by
  refine ⟨MenuBarItem.Refresh i (s.modifyItem i (fun x => { x with hovered := true })),
    ?_, ?_, rfl, rfl, fun _ => rfl, rfl⟩
  · simp [MenuBarItem.MouseIn, hinactive]
  · simp [MenuBarItem.Refresh, RefreshWidget, State.record, State.modifyItem]

/-- Witness for C7 at an inactive two-item bar, pointer entering item 0. -/
theorem MouseIn_inactive_only_sets_hover_witness :
    ∃ s1, MenuBarItem.MouseIn 0 (twoItemState false none (NewSize 80 60)) = some s1 ∧
      (s1.items 0).hovered = true ∧
      s1.bar = (twoItemState false none (NewSize 80 60)).bar ∧
      s1.menus = (twoItemState false none (NewSize 80 60)).menus ∧
      (∀ m, Menu.Visible m s1 = Menu.Visible m (twoItemState false none (NewSize 80 60))) ∧
      s1.calls = (twoItemState false none (NewSize 80 60)).calls ++ [Call.refreshWidget 0] :=
  MouseIn_inactive_only_sets_hover 0 (twoItemState false none (NewSize 80 60)) rfl

/-- C9: highlight rule.  `BackgroundColor` returns the hover colour exactly when
the item is hovered or its child dropdown exists and is visible, and returns
transparent exactly in the other case. -/
theorem BackgroundColor_highlight_rule (i : ItemRef) (s : State) :
    (menuBarItemRenderer.BackgroundColor i s = Color.hoverColor ↔
      ((s.items i).hovered = true ∨
        ∃ c, (s.items i).Child = some c ∧ Menu.Visible c s = true)) ∧
    (menuBarItemRenderer.BackgroundColor i s = Color.transparent ↔
      ¬((s.items i).hovered = true ∨
        ∃ c, (s.items i).Child = some c ∧ Menu.Visible c s = true)) := by
  unfold menuBarItemRenderer.BackgroundColor
  cases hh : (s.items i).hovered <;> cases hc : (s.items i).Child with
  | none => simp
  | some c => cases hv : Menu.Visible c s <;> simp [hv]

/-- C1: singleton invariant.  Start from any state in which the bar is active and
the only child dropdown that may be visible is the one `activeChild` refers to.
For any finite sequence of `MouseIn` events on items of the bar, after each event
of the sequence (after every prefix of it) the events have all returned, at most
one child dropdown of the bar is visible, and a visible one is the one
`activeChild` refers to.  Distinctness of the items' dropdowns is not needed. -/
theorem MouseIn_singleton_invariant (s : State) (evs : List ItemRef)
    (hactive : s.bar.active = true) (hinv : VisibleOnlyActiveChild s) (k : Nat) :
    ∃ s1, mouseInSeq (evs.take k) s = some s1 ∧ s1.bar.active = true ∧
      AtMostOneVisible s1 ∧ VisibleOnlyActiveChild s1 := by
  obtain ⟨s1, h1, ha, hi⟩ := mouseInSeq_preserves (evs.take k) s hactive hinv
  exact ⟨s1, h1, ha, AtMostOneVisible_of_only s1 hi, hi⟩

/-- Witness for C1: an active bar showing dropdown 10 of item 0, the pointer
entering item 1, then item 2 (which has no child), then item 0, observed after
the second event. -/
theorem MouseIn_singleton_invariant_witness :
    nestedState.bar.active = true ∧ VisibleOnlyActiveChild nestedState ∧
    ∃ s1, mouseInSeq ([1, 2, 0].take 2) nestedState = some s1 ∧
      s1.bar.active = true ∧ AtMostOneVisible s1 ∧ VisibleOnlyActiveChild s1 :=
  ⟨rfl, nestedState_visibleOnly,
    MouseIn_singleton_invariant nestedState [1, 2, 0] rfl nestedState_visibleOnly 2⟩

/-- C6: re-entry is idempotent.  When the bar is active and `activeChild` is
already the child of item `i`, `MouseIn` on `i` returns, the calls it makes
contain no `Show` and no `Hide` of any dropdown (they are the closing of the
child's nested submenu, when there is a child, and the refresh of the item), and
`activeChild` refers to the same dropdown as before. -/
theorem MouseIn_reentry_idempotent (i : ItemRef) (s : State)
    (hactive : s.bar.active = true) (hsame : s.bar.activeChild = (s.items i).Child) :
    ∃ s1 added, MenuBarItem.MouseIn i s = some s1 ∧
      s1.calls = s.calls ++ added ∧
      added = (((s.items i).Child.map Call.menuDeactivateChild).toList ++
        [Call.refreshWidget i]) ∧
      (∀ m, Call.menuShow m ∉ added ∧ Call.menuHide m ∉ added) ∧
      s1.bar.activeChild = s.bar.activeChild ∧ s1.bar.active = true := by
  have hC := Child_modifyItem_hovered i i true s
  cases hc : (s.items i).Child with
  | none =>
    rw [hc] at hsame hC
    refine ⟨MenuBarItem.Refresh i (s.modifyItem i (fun x => { x with hovered := true })),
      [Call.refreshWidget i], ?_, rfl, by simp, by simp, rfl, hactive⟩
    unfold MenuBarItem.MouseIn
    rw [if_pos hactive, activateChild_none_none i _ hC hsame]
    rfl
  | some c =>
    rw [hc] at hsame hC
    refine ⟨MenuBarItem.Refresh i (Menu.DeactivateChild c
        (s.modifyItem i (fun x => { x with hovered := true }))),
      [Call.menuDeactivateChild c, Call.refreshWidget i], ?_, ?_, by simp, by simp, ?_, ?_⟩
    · unfold MenuBarItem.MouseIn
      rw [if_pos hactive, activateChild_same i c _ hC hsame]
      rfl
    · simp [MenuBarItem.Refresh, RefreshWidget, State.record, State.modifyItem]
    · simp [MenuBarItem.Refresh, RefreshWidget, State.record, State.modifyItem]
    · simpa [MenuBarItem.Refresh, RefreshWidget, State.record, State.modifyItem] using hactive

/-- Witness for C6: an active bar whose active child is dropdown 10 of item 0, the
pointer entering item 0. -/
theorem MouseIn_reentry_idempotent_witness :
    ∃ s1 added, MenuBarItem.MouseIn 0 nestedState = some s1 ∧
      s1.calls = nestedState.calls ++ added ∧
      added = (((nestedState.items 0).Child.map Call.menuDeactivateChild).toList ++
        [Call.refreshWidget 0]) ∧
      (∀ m, Call.menuShow m ∉ added ∧ Call.menuHide m ∉ added) ∧
      s1.bar.activeChild = nestedState.bar.activeChild ∧ s1.bar.active = true :=
  MouseIn_reentry_idempotent 0 nestedState rfl rfl

/-- C10: postcondition of the switch-menu operation.  For every state and item,
`activateChild` returns and afterwards the bar's `activeChild` equals the item's
`Child`, also when the item has no child.  In particular, when the bar is active
and the dropdown `a` of another item is shown (the bar being in a state where
only its active child may be visible), `MouseIn` on an item with no child returns,
hides `a`, sets `activeChild` to nil and leaves no child dropdown of the bar
visible. -/
theorem activateChild_postcondition (i : ItemRef) (s : State) :
    (∃ s1, MenuBarItem.activateChild i s = some s1 ∧
      s1.bar.activeChild = (s1.items i).Child ∧
      (s1.items i).Child = (s.items i).Child) ∧
    (s.bar.active = true → (s.items i).Child = none →
      ∀ j a, (s.items j).Child = some a → Menu.Visible a s = true →
        VisibleOnlyActiveChild s →
        ∃ s2, MenuBarItem.MouseIn i s = some s2 ∧
          s2.calls = s.calls ++ [Call.menuHide a, Call.refreshWidget i] ∧
          Menu.Visible a s2 = false ∧ s2.bar.activeChild = none ∧
          ∀ m, IsChildDropdown s2 m → Menu.Visible m s2 = false) := by
  constructor
  · obtain ⟨s1, h1, hitems, _, hchild⟩ := activateChild_post i s
    exact ⟨s1, h1, by rw [hchild, hitems], by rw [hitems]⟩
  · intro hactive hnone j a hj hvis hinv
    have hact : s.bar.activeChild = some a := hinv a ⟨j, hj⟩ hvis
    obtain ⟨s2, h2, _, hinv2, hC, hchild⟩ := MouseIn_active_step i s hactive hinv
    rw [hnone] at hchild
    refine ⟨s2, h2, ?_, ?_, hchild, ?_⟩
    · have hC0 := Child_modifyItem_hovered i i true s
      rw [hnone] at hC0
      have h3 : MenuBarItem.MouseIn i s = some (MenuBarItem.Refresh i
          { Menu.Hide a (s.modifyItem i (fun x => { x with hovered := true })) with
            bar := { s.bar with activeChild := none } }) := by
        unfold MenuBarItem.MouseIn
        rw [if_pos hactive, activateChild_none_some i a _ hC0 hact]
        rfl
      rw [h3] at h2
      cases h2
      simp [MenuBarItem.Refresh, RefreshWidget, State.record, State.modifyItem]
    · cases hv : Menu.Visible a s2 with
      | false => rfl
      | true =>
        have := hinv2 a ⟨j, by rw [hC j]; exact hj⟩ hv
        rw [hchild] at this
        cases this
    · intro m hm
      cases hv : Menu.Visible m s2 with
      | false => rfl
      | true =>
        have := hinv2 m hm hv
        rw [hchild] at this
        cases this

/-- Witness for C10: dropdown 10 of item 0 is shown on an active bar, the pointer
enters item 2, which has no child. -/
theorem activateChild_postcondition_witness :
    (∃ s1, MenuBarItem.activateChild 2 nestedState = some s1 ∧
      s1.bar.activeChild = (s1.items 2).Child ∧
      (s1.items 2).Child = (nestedState.items 2).Child) ∧
    ∃ s2, MenuBarItem.MouseIn 2 nestedState = some s2 ∧
      s2.calls = nestedState.calls ++ [Call.menuHide 10, Call.refreshWidget 2] ∧
      Menu.Visible 10 s2 = false ∧ s2.bar.activeChild = none ∧
      ∀ m, IsChildDropdown s2 m → Menu.Visible m s2 = false :=
  ⟨(activateChild_postcondition 2 nestedState).1,
    (activateChild_postcondition 2 nestedState).2 rfl rfl 0 10 rfl rfl
      nestedState_visibleOnly⟩

/-- C3 as stated fails: in `nestedState` dropdown 10 of item 0 is the active child
and has its nested submenu 12 open.  `activateChild` on item 1 makes the calls
`DeactivateChild` on dropdown 11 (its own child), `Hide` on dropdown 10, the
first sizing of dropdown 11 and `Show` on dropdown 11: none of them collapses the
nested submenu of dropdown 10, which is still recorded as open, and visible,
afterwards. -/
theorem activateChild_switch_order_counterexample :
    (nestedState.items 0).Child = some 10 ∧ nestedState.bar.activeChild = some 10 ∧
    (nestedState.menus 10).activeChild = some 12 ∧ (nestedState.items 1).Child = some 11 ∧
    (MenuBarItem.activateChild 1 nestedState).map
      (fun r => (r.calls, (r.menus 10).activeChild, Menu.Visible 12 r)) =
      some ([Call.menuDeactivateChild 11, Call.menuHide 10,
        Call.menuResize 11 (NewSize 80 60), Call.menuMove 11 (NewPos 0 20),
        Call.menuShow 11], some 12, true) := by
  refine ⟨rfl, rfl, rfl, rfl, ?_⟩
  decide

/-- C3, amended: when the dropdown `a` of item `iA` is the active child and has
an open nested submenu `n`, `activateChild` on a different item `iB` with dropdown
`b` returns after making, in this order, the calls `DeactivateChild` on `b` (it
collapses the nested submenu of `b`, the dropdown being switched to),  `Hide` on
`a`, the sizing of `b` if it was never sized, and `Show` on `b`.  Afterwards `a`
is hidden, `b` is shown and is the active child; `a` still records `n` as its
open nested submenu. -/
theorem activateChild_switch_order (iA iB : ItemRef) (a b n : MenuRef) (s : State)
    (_hA : (s.items iA).Child = some a) (hactive : s.bar.activeChild = some a)
    (hnested : (s.menus a).activeChild = some n)
    (hB : (s.items iB).Child = some b) (hne : a ≠ b) :
    ∃ s1, MenuBarItem.activateChild iB s = some s1 ∧
      s1.calls = s.calls ++ ([Call.menuDeactivateChild b, Call.menuHide a] ++
        (if (Menu.Size b s).IsZero then
          [Call.menuResize b (Menu.MinSize b s),
            Call.menuMove b (NewPos 0 (MenuBarItem.Size iB s).Height)]
        else []) ++ [Call.menuShow b]) ∧
      Menu.Visible a s1 = false ∧ Menu.Visible b s1 = true ∧
      s1.bar.activeChild = some b ∧ (s1.menus a).activeChild = some n := by
  have hab : s.bar.activeChild ≠ some b := by
    rw [hactive]; exact fun h => hne (Option.some.inj h)
  have hsw := activateChild_switch iB b s hB hab
  refine ⟨_, hsw, ?_, ?_, ?_, ?_, ?_⟩
  · rw [activateChild_switch_calls iB b s _ hB hab hsw, hactive]
    simp
  · rw [Visible_sizeAndShow, if_neg hne, Visible_setActiveChild]
    have : hideActive (Menu.DeactivateChild b s) = Menu.Hide a (Menu.DeactivateChild b s) := by
      simp [hideActive, hactive]
    rw [this, Visible_Hide, if_pos rfl]
  · rw [Visible_sizeAndShow, if_pos rfl]
  · simp
  · rw [nested_sizeAndShow]
    have : hideActive (Menu.DeactivateChild b s) = Menu.Hide a (Menu.DeactivateChild b s) := by
      simp [hideActive, hactive]
    show ((hideActive (Menu.DeactivateChild b s)).menus a).activeChild = some n
    rw [this, nested_Hide, nested_DeactivateChild_of_ne a b s hne, hnested]

/-- Witness for C3 (amended) at `nestedState`, switching from item 0 to item 1. -/
theorem activateChild_switch_order_witness :
    ∃ s1, MenuBarItem.activateChild 1 nestedState = some s1 ∧
      s1.calls = nestedState.calls ++ ([Call.menuDeactivateChild 11, Call.menuHide 10] ++
        (if (Menu.Size 11 nestedState).IsZero then
          [Call.menuResize 11 (Menu.MinSize 11 nestedState),
            Call.menuMove 11 (NewPos 0 (MenuBarItem.Size 1 nestedState).Height)]
        else []) ++ [Call.menuShow 11]) ∧
      Menu.Visible 10 s1 = false ∧ Menu.Visible 11 s1 = true ∧
      s1.bar.activeChild = some 11 ∧ (s1.menus 10).activeChild = some 12 :=
  activateChild_switch_order 0 1 10 11 12 nestedState rfl rfl rfl rfl (by decide)

/-- C2: tap toggles the bar.  For every item with a child dropdown `c`, on a bar
whose recorded active child, if any, is visible (as `activateChild` leaves it) and
is not its own nested submenu, `Tapped` while the bar is inactive returns and
leaves the bar active with `c` visible and recorded as the active child; a second
`Tapped` on the same item returns and leaves the bar inactive with `c` hidden and
`activeChild` cleared.  The bar's `activate` sets the active flag, and its
`deactivate` clears the flag and hides and clears `activeChild`; after it, and on
a bar never activated, there is no recorded active child. -/
theorem Tapped_toggle (i : ItemRef) (c : MenuRef) (s : State)
    (hc : (s.items i).Child = some c) (hinactive : s.bar.active = false)
    (hshown : ∀ a, s.bar.activeChild = some a →
      Menu.Visible a s = true ∧ (s.menus a).activeChild ≠ some a) :
    ∃ s1, MenuBarItem.Tapped i s = some s1 ∧
      s1.bar.active = true ∧ Menu.Visible c s1 = true ∧ s1.bar.activeChild = some c ∧
      ∃ s2, MenuBarItem.Tapped i s1 = some s2 ∧
        s2.bar.active = false ∧ Menu.Visible c s2 = false ∧ s2.bar.activeChild = none := by
  obtain ⟨s1, h1, hact, hvis, hchild⟩ : ∃ s1, MenuBarItem.Tapped i s = some s1 ∧
      s1.bar.active = true ∧ Menu.Visible c s1 = true ∧ s1.bar.activeChild = some c := by
    by_cases hsame : s.bar.activeChild = some c
    · have hsm := activateChild_same i c (MenuBar.activate s) hc hsame
      obtain ⟨hv, hself⟩ := hshown c hsame
      refine ⟨MenuBarItem.Refresh i (Menu.DeactivateChild c (MenuBar.activate s)),
        ?_, ?_, ?_, ?_⟩
      · unfold MenuBarItem.Tapped
        rw [hinactive, hsm]
        rfl
      · show (Menu.DeactivateChild c (MenuBar.activate s)).bar.active = true
        simp [MenuBar.activate, State.record]
      · show Menu.Visible c (Menu.DeactivateChild c (MenuBar.activate s)) = true
        rw [Visible_DeactivateChild_self c (MenuBar.activate s) hself]
        exact hv
      · show (Menu.DeactivateChild c (MenuBar.activate s)).bar.activeChild = some c
        rw [DeactivateChild_bar]
        exact hsame
    · have hsw := activateChild_switch i c (MenuBar.activate s) hc hsame
      refine ⟨MenuBarItem.Refresh i (sizeAndShow i c (setActiveChild (some c)
        (hideActive (Menu.DeactivateChild c (MenuBar.activate s))))), ?_, ?_, ?_, ?_⟩
      · unfold MenuBarItem.Tapped
        rw [hinactive, hsw]
        rfl
      · show (sizeAndShow i c _).bar.active = true
        simp [MenuBar.activate, State.record]
      · show Menu.Visible c (sizeAndShow i c _) = true
        rw [Visible_sizeAndShow, if_pos rfl]
      · show (sizeAndShow i c _).bar.activeChild = some c
        simp
  refine ⟨s1, h1, hact, hvis, hchild, MenuBarItem.Refresh i (MenuBar.deactivate s1), ?_, rfl,
    ?_, rfl⟩
  · unfold MenuBarItem.Tapped
    rw [if_pos hact]
    rfl
  · simp [MenuBarItem.Refresh, RefreshWidget, State.record, MenuBar.deactivate, hchild,
      Menu.Visible, State.modifyMenu, Menu.setHidden]

/-- Witness for C2: an inactive two-item bar with no active child, item 0 tapped
twice. -/
theorem Tapped_toggle_witness :
    ∃ s1, MenuBarItem.Tapped 0 (twoItemState false none (NewSize 80 60)) = some s1 ∧
      s1.bar.active = true ∧ Menu.Visible 10 s1 = true ∧ s1.bar.activeChild = some 10 ∧
      ∃ s2, MenuBarItem.Tapped 0 s1 = some s2 ∧
        s2.bar.active = false ∧ Menu.Visible 10 s2 = false ∧ s2.bar.activeChild = none :=
  Tapped_toggle 0 10 (twoItemState false none (NewSize 80 60)) rfl rfl
    (fun _ h => Option.noConfusion h)

/-- C4 fails on the code for `Resize`: on an item with no child dropdown (as every
item is before its renderer has been created) `Resize` reaches
`updateChildPosition`, which calls `Move` on the nil `Child` with no presence
check, and does not return; in every state `Resize` returns exactly when the item
has a child.  The two guarded operations do return on the childless item:
`activateChild` changes nothing and `BackgroundColor` is transparent. -/
theorem Resize_without_child_fails :
    (leafState.items 0).Child = none ∧
    (MenuBarItem.Resize 0 (NewSize 0 0) leafState).isNone = true ∧
    (MenuBarItem.updateChildPosition 0 leafState).isNone = true ∧
    (∀ i size s, (MenuBarItem.Resize i size s).isSome = (s.items i).Child.isSome) ∧
    (MenuBarItem.activateChild 0 leafState).map (fun r => (r.bar, r.calls)) =
      some (leafState.bar, []) ∧
    menuBarItemRenderer.BackgroundColor 0 leafState = Color.transparent := by
  refine ⟨rfl, rfl, rfl, ?_, ?_, rfl⟩
  · intro i size s
    cases hc : (s.items i).Child <;>
      simp [MenuBarItem.Resize, MenuBarItem.updateChildPosition, ResizeWidget, State.record,
        State.modifyItem, hc]
  · decide

/-- C5 as stated fails: a dropdown whose minimum size is zero is resized again on
every later show.  On an active two-item bar whose dropdowns have minimum size
zero, `activateChild` on item 0 (first show of dropdown 10), on item 1, and on
item 0 again makes the calls below: the third operation shows dropdown 10 a second
time and calls `Resize` on it again. -/
theorem activateChild_lazy_sizing_counterexample :
    (runEvents [Event.activateChild 0, Event.activateChild 1, Event.activateChild 0]
      (twoItemState true none (NewSize 0 0))).map (fun r => r.calls) =
      some [Call.menuDeactivateChild 10,
        Call.menuResize 10 (NewSize 0 0), Call.menuMove 10 (NewPos 0 20), Call.menuShow 10,
        Call.menuDeactivateChild 11, Call.menuHide 10,
        Call.menuResize 11 (NewSize 0 0), Call.menuMove 11 (NewPos 0 20), Call.menuShow 11,
        Call.menuDeactivateChild 10, Call.menuHide 11,
        Call.menuResize 10 (NewSize 0 0), Call.menuMove 10 (NewPos 0 20), Call.menuShow 10] := by
  decide

/-- C5, amended: lazy sizing on first show.  For every item `i` with a child
dropdown `c` that was never sized (its size is zero) and is not yet the active
child, `activateChild` returns after making, in this order, the calls
`DeactivateChild` on `c`, `Hide` on the previous active child if any, `Resize` of
`c` to its minimum size, `Move` of `c` to `(0, item height)` and only then `Show`
on `c`.  If the minimum size of `c` is not zero, then after any later sequence of
events on the items of the bar the size of `c` is still that minimum size, no
`Resize` was called on `c`, and every later `activateChild` returns without
calling `Resize` on `c`. -/
theorem activateChild_lazy_sizing (i : ItemRef) (c : MenuRef) (s : State)
    (hc : (s.items i).Child = some c) (hzero : (Menu.Size c s).IsZero = true)
    (hshow : s.bar.activeChild ≠ some c) :
    ∃ s1, MenuBarItem.activateChild i s = some s1 ∧
      s1.calls = s.calls ++ ([Call.menuDeactivateChild c] ++
        (s.bar.activeChild.map Call.menuHide).toList ++
        [Call.menuResize c (Menu.MinSize c s),
          Call.menuMove c (NewPos 0 (MenuBarItem.Size i s).Height),
          Call.menuShow c]) ∧
      Menu.Size c s1 = Menu.MinSize c s ∧
      (s1.menus c).base.position = NewPos 0 (MenuBarItem.Size i s).Height ∧
      Menu.Visible c s1 = true ∧
      ((Menu.MinSize c s).IsZero = false →
        ∀ evs s2, runEvents evs s1 = some s2 →
          KeepsSize c s1 s2 ∧
          ∀ j, ∃ s3, MenuBarItem.activateChild j s2 = some s3 ∧ KeepsSize c s2 s3) := by
  have hsw := activateChild_switch i c s hc hshow
  have hsize : Menu.Size c (sizeAndShow i c (setActiveChild (some c)
      (hideActive (Menu.DeactivateChild c s)))) = Menu.MinSize c s := by
    rw [Size_sizeAndShow]
    simp [hzero]
  refine ⟨_, hsw, ?_, hsize, ?_, ?_, ?_⟩
  · rw [activateChild_switch_calls i c s _ hc hshow hsw]
    simp [hzero]
  · have hz : (Menu.Size c (setActiveChild (some c)
        (hideActive (Menu.DeactivateChild c s)))).IsZero = true := by
      simpa using hzero
    simp [sizeAndShow, hz, hzero, Menu.Show, Menu.Move, State.record, State.modifyMenu,
      Menu.setHidden, MenuBarItem.Size]
  · rw [Visible_sizeAndShow, if_pos rfl]
  · intro hmin evs s2 hrun
    have hnz1 : (Menu.Size c (sizeAndShow i c (setActiveChild (some c)
        (hideActive (Menu.DeactivateChild c s))))).IsZero = false := by
      rw [hsize]; exact hmin
    have k := runEvents_keeps_size evs c _ s2 hrun hnz1
    refine ⟨k, fun j => ?_⟩
    obtain ⟨s3, h3, _⟩ := activateChild_post j s2
    have hnz2 : (Menu.Size c s2).IsZero = false := by rw [k.1]; exact hnz1
    exact ⟨s3, h3, activateChild_keeps_size j c s2 s3 h3 hnz2⟩

/-- Witness for C5 (amended): the first show of dropdown 10 of item 0 on an active
two-item bar whose dropdowns have minimum size 80 by 60, with the later events
pointer-enter on item 1 and tap on item 1. -/
theorem activateChild_lazy_sizing_witness :
    ∃ s1, MenuBarItem.activateChild 0 (twoItemState true none (NewSize 80 60)) = some s1 ∧
      s1.calls = [Call.menuDeactivateChild 10, Call.menuResize 10 (NewSize 80 60),
        Call.menuMove 10 (NewPos 0 20), Call.menuShow 10] ∧
      Menu.Size 10 s1 = NewSize 80 60 ∧
      (s1.menus 10).base.position = NewPos 0 20 ∧
      Menu.Visible 10 s1 = true ∧
      ∃ s2, runEvents [Event.mouseIn 1, Event.tapped 1] s1 = some s2 ∧
        KeepsSize 10 s1 s2 ∧
        ∃ s3, MenuBarItem.activateChild 0 s2 = some s3 ∧ KeepsSize 10 s2 s3 := by
  obtain ⟨s1, h1, hcalls, hsize, hpos, hvis, hlater⟩ :=
    activateChild_lazy_sizing 0 10 (twoItemState true none (NewSize 80 60)) rfl rfl
      (by decide)
  have hs1 : s1 = sizeAndShow 0 10 (setActiveChild (some 10)
      (hideActive (Menu.DeactivateChild 10 (twoItemState true none (NewSize 80 60))))) := by
    have := activateChild_switch 0 10 (twoItemState true none (NewSize 80 60)) rfl (by decide)
    rw [this] at h1
    exact (Option.some.inj h1).symm
  have hrun : ∃ s2, runEvents [Event.mouseIn 1, Event.tapped 1] s1 = some s2 := by
    rw [hs1]
    exact ⟨_, rfl⟩
  obtain ⟨s2, h2⟩ := hrun
  obtain ⟨k, hact⟩ := hlater rfl [Event.mouseIn 1, Event.tapped 1] s2 h2
  exact ⟨s1, h1, hcalls, hsize, hpos, hvis, s2, h2, k, hact 0⟩

end Fyne
